import Mathlib

/-!
Shallow embedding of the research-paper analysis backend (`main.py`).

Text is modelled as a list of Unicode code points (`List Nat`), raw file
content as a list of bytes (`List Nat`, each < 256).  Python floats are
modelled as exact rationals (`ℚ`), with `round(x, 2)` modelled as
round-half-to-even at two decimal places.  The character classifiers
(`\w`, `\s`, `.lower()`) are modelled on the ASCII repertoire, which is
the repertoire the verified claims exercise.
-/

/-- Python `\s` (ASCII part): space, tab, newline, vertical tab, form feed,
carriage return. -/
def isWsC (c : Nat) : Bool := decide (c = 32 ∨ (9 ≤ c ∧ c ≤ 13))

/-- Sentence-terminal punctuation of the split pattern `(?<=[.!?])\s+`:
`.` (46), `!` (33), `?` (63). -/
def isTermC (c : Nat) : Bool := decide (c = 46 ∨ c = 33 ∨ c = 63)

/-- Python `\w` (ASCII part): digits, upper/lower letters, underscore. -/
def isWordC (c : Nat) : Bool :=
  decide ((48 ≤ c ∧ c ≤ 57) ∨ (65 ≤ c ∧ c ≤ 90) ∨ (97 ≤ c ∧ c ≤ 122) ∨ c = 95)

/-- ASCII alphanumeric (no underscore), used to state claims about
"alphanumeric tokens". -/
def isAlnumC (c : Nat) : Bool :=
  decide ((48 ≤ c ∧ c ≤ 57) ∨ (65 ≤ c ∧ c ≤ 90) ∨ (97 ≤ c ∧ c ≤ 122))

/-- `str.lower()` on the ASCII repertoire. -/
def lowerC (c : Nat) : Nat := if 65 ≤ c ∧ c ≤ 90 then c + 32 else c

/-- `text.lower()` as used by the section detector. -/
def asciiLower (l : List Nat) : List Nat := l.map lowerC

/-- Code points of a Lean string literal; used to write concrete texts,
filenames and the fixed section vocabulary. -/
def strCodes (s : String) : List Nat := s.toList.map Char.toNat

/-- Whether `p` is a leading block of `l` (element-wise equality). -/
def startsWithL : List Nat → List Nat → Bool
  | [], _ => true
  | _ :: _, [] => false
  | p :: ps, h :: hs => p == h && startsWithL ps hs

/-- Python `str.endswith`: the suffix test used by the extension dispatch. -/
def endsWithL (l suf : List Nat) : Bool := startsWithL suf.reverse l.reverse

/-- Python substring containment `needle in hay`. -/
def containsL (needle : List Nat) : List Nat → Bool
  | [] => startsWithL needle []
  | h :: t => startsWithL needle (h :: t) || containsL needle t

/-- Python `str.strip()` (whitespace on both ends, ASCII part). -/
def pyStrip (l : List Nat) : List Nat :=
  ((l.dropWhile isWsC).reverse.dropWhile isWsC).reverse

/-- Emit the accumulated (reversed) word, if any. -/
def flushWord (cur : List Nat) : List (List Nat) :=
  if cur = [] then [] else [cur.reverse]

/-- Scanner computing `re.findall(r"\b\w+\b", text)`: the maximal runs of
word characters, accumulated in reverse in `cur`. -/
def wordsOfAux : List Nat → List Nat → List (List Nat)
  | [], cur => flushWord cur
  | c :: t, cur =>
    if isWordC c then wordsOfAux t (c :: cur)
    else flushWord cur ++ wordsOfAux t []

/-- `re.findall(r"\b\w+\b", text)`. -/
def wordsOf (l : List Nat) : List (List Nat) := wordsOfAux l []

/-- Head-of-list whitespace test (the `\s` lookahead of the split pattern). -/
def headIsWs : List Nat → Bool
  | [] => false
  | c :: _ => isWsC c

/-- Fuelled scanner for `re.split(r"(?<=[.!?])\s+", text)`: the split points
are exactly the maximal whitespace runs immediately preceded by `.`, `!` or
`?`.  The fuel (instantiated with the list length, which every step
decreases by at least one) keeps the recursion structural. -/
def sentSplitF : Nat → List Nat → List (List Nat)
  | _, [] => [[]]
  | 0, l => [l]
  | f + 1, c :: t =>
    if isTermC c && headIsWs t then
      [c] :: sentSplitF f (t.dropWhile isWsC)
    else
      match sentSplitF f t with
      | s :: ss => (c :: s) :: ss
      | [] => [[c]]

/-- `re.split(r"(?<=[.!?])\s+", text)`. -/
def sentSplit (l : List Nat) : List (List Nat) := sentSplitF l.length l

/-- `sentences = re.split(r"(?<=[.!?])\s+", text.strip()) if text.strip() else []`. -/
def sentencesOf (text : List Nat) : List (List Nat) :=
  if pyStrip text = [] then [] else sentSplit (pyStrip text)

/-- `word_count = len(words)`. -/
def wordCount (text : List Nat) : Nat := (wordsOf text).length

/-- `sentence_count = len([s for s in sentences if s.strip()])`. -/
def sentenceCount (text : List Nat) : Nat :=
  ((sentencesOf text).filter (fun s => !(pyStrip s == []))).length

/-- `avg_sentence_length = (word_count / sentence_count) if sentence_count else 0.0`. -/
def avgSentenceLength (text : List Nat) : ℚ :=
  if sentenceCount text = 0 then 0
  else (wordCount text : ℚ) / (sentenceCount text : ℚ)

/-- The fixed section vocabulary of `basic_analysis` (the trailing
`.strip('\\b')` in the comprehension strips the characters `\` and `b`
from the ends of each term, which is a no-op on this vocabulary). -/
def sectionVocab : List (List Nat) :=
  [strCodes "abstract", strCodes "introduction", strCodes "methods",
   strCodes "materials", strCodes "results", strCodes "discussion",
   strCodes "conclusion", strCodes "references"]

/-- `sections = [s for s in vocab if s in lower]` — substring containment
against the lower-cased text, in vocabulary order. -/
def sectionsOf (text : List Nat) : List (List Nat) :=
  sectionVocab.filter (fun s => containsL s (asciiLower text))

/-- `avg_word_len = sum(len(w) for w in words) / word_count if word_count else 0`. -/
def avgWordLen (text : List Nat) : ℚ :=
  if wordCount text = 0 then 0
  else (((wordsOf text).map List.length).sum : ℚ) / (wordCount text : ℚ)

/-- Round-half-to-even to an integer, Python's rounding mode. -/
def roundHalfEven (q : ℚ) : ℤ :=
  if q - ⌊q⌋ < (1 : ℚ) / 2 then ⌊q⌋
  else if (1 : ℚ) / 2 < q - ⌊q⌋ then ⌊q⌋ + 1
  else if ⌊q⌋ % 2 = 0 then ⌊q⌋ else ⌊q⌋ + 1

/-- Python `round(q, 2)`. -/
def round2 (q : ℚ) : ℚ := (roundHalfEven (q * 100) : ℚ) / 100

/-- `readability = round(avg_word_len * (avg_sentence_length or 1), 2)`.
Python's `x or 1` yields `1` exactly when `x` is zero, and `x` itself for
any non-zero value (including values strictly between 0 and 1). -/
def readabilityOf (text : List Nat) : ℚ :=
  round2 (avgWordLen text *
    (if avgSentenceLength text = 0 then 1 else avgSentenceLength text))

def msgEmpty : String :=
  "The file appears empty or unreadable. Upload a TXT, DOCX, or PDF."
def msgLong : String :=
  "Sentences are long on average. Consider splitting complex sentences."
def msgShort : String :=
  "Sentences are very short. Combine related ideas to improve flow."
def msgDense : String :=
  "Language may be dense. Prefer simpler words where possible."
def msgAbstract : String :=
  "Add or refine an Abstract summarizing purpose, methods, results, and conclusions."
def msgIntro : String :=
  "Ensure an Introduction with clear problem statement and contributions."
def msgMethods : String :=
  "Include a Methods/Materials section detailing protocols and datasets."
def msgResults : String :=
  "Add a Results section with key findings and visuals."
def msgDiscussion : String :=
  "Include a Discussion interpreting findings and limitations."
def msgConclusion : String :=
  "Conclude with takeaways and future work."
def msgReferences : String :=
  "Provide properly formatted References."

/-- The recommendation list before deduplication: the eleven rules of
`basic_analysis`, appended in source order. -/
def recsRaw (text : List Nat) : List String :=
  (if pyStrip text = [] then [msgEmpty] else []) ++
  (if sentenceCount text ≠ 0 ∧ avgSentenceLength text > 30 then [msgLong] else []) ++
  (if sentenceCount text ≠ 0 ∧ avgSentenceLength text < 12 then [msgShort] else []) ++
  (if readabilityOf text ≠ 0 ∧ readabilityOf text > 140 then [msgDense] else []) ++
  (if ¬ strCodes "abstract" ∈ sectionsOf text then [msgAbstract] else []) ++
  (if ¬ strCodes "introduction" ∈ sectionsOf text then [msgIntro] else []) ++
  (if ¬ (strCodes "methods" ∈ sectionsOf text ∨ strCodes "materials" ∈ sectionsOf text)
     then [msgMethods] else []) ++
  (if ¬ strCodes "results" ∈ sectionsOf text then [msgResults] else []) ++
  (if ¬ strCodes "discussion" ∈ sectionsOf text then [msgDiscussion] else []) ++
  (if ¬ strCodes "conclusion" ∈ sectionsOf text then [msgConclusion] else []) ++
  (if ¬ strCodes "references" ∈ sectionsOf text then [msgReferences] else [])

/-- First-occurrence deduplication, `list(dict.fromkeys(recs))`: keep an
element when it has not been seen before. -/
def dedupAux : List String → List String → List String
  | [], _ => []
  | x :: xs, seen =>
    if x ∈ seen then dedupAux xs seen else x :: dedupAux xs (x :: seen)

/-- `recs = list(dict.fromkeys(recs))`. -/
def dedupFirst (l : List String) : List String := dedupAux l []

/-- `recommendations` value returned by `basic_analysis`. -/
def recsOf (text : List Nat) : List String := dedupFirst (recsRaw text)

/-- The dictionary returned by `basic_analysis` (its `avg_sentence_length`
entry is `round(avg_sentence_length, 2)`). -/
structure AnalysisResult where
  word_count : Nat
  sentence_count : Nat
  avg_sentence_length : ℚ
  sections : List (List Nat)
  readability : ℚ
  recommendations : List String

/-- `basic_analysis(text)` from `main.py`. -/
def basic_analysis (text : List Nat) : AnalysisResult :=
  ⟨wordCount text, sentenceCount text, round2 (avgSentenceLength text),
   sectionsOf text, readabilityOf text, recsOf text⟩

/-- A Unicode scalar value: what a decoded Python `str` character can be. -/
def validScalar (c : Nat) : Prop := c < 1114112 ∧ (c < 55296 ∨ 57343 < c)

/-- A UTF-8 continuation byte `10xxxxxx`. -/
def isContB (b : Nat) : Bool := decide (128 ≤ b ∧ b < 192)

/-- Decode one UTF-8 scalar from the front of the byte list, returning the
scalar and the remaining bytes, or `none` on a malformed leading sequence
(invalid lead byte, truncation, bad continuation byte, overlong form,
surrogate, or out-of-range value). -/
def decodeOne : List Nat → Option (Nat × List Nat)
  | [] => none
  | b :: t =>
    if b < 128 then some (b, t)
    else if 194 ≤ b ∧ b < 224 then
      match t with
      | b1 :: t1 =>
        if isContB b1 then some ((b - 192) * 64 + (b1 - 128), t1) else none
      | [] => none
    else if 224 ≤ b ∧ b < 240 then
      match t with
      | b1 :: b2 :: t2 =>
        if isContB b1 ∧ isContB b2 then
          let c := (b - 224) * 4096 + (b1 - 128) * 64 + (b2 - 128)
          if 2048 ≤ c ∧ (c < 55296 ∨ 57343 < c) then some (c, t2) else none
        else none
      | _ => none
    else if 240 ≤ b ∧ b < 245 then
      match t with
      | b1 :: b2 :: b3 :: t3 =>
        if isContB b1 ∧ isContB b2 ∧ isContB b3 then
          let c := (b - 240) * 262144 + (b1 - 128) * 4096 + (b2 - 128) * 64 + (b3 - 128)
          if 65536 ≤ c ∧ c < 1114112 then some (c, t3) else none
        else none
      | _ => none
    else none

/-- Fuelled loop of `bytes.decode("utf-8", errors="ignore")`: decode scalars
left to right, skipping a byte whenever no valid sequence starts at it.
Fuel is instantiated with the byte count; every step consumes at least one
byte. -/
def utf8DecodeIgnoreF : Nat → List Nat → List Nat
  | _, [] => []
  | 0, _ => []
  | f + 1, b :: t =>
    match decodeOne (b :: t) with
    | some (c, r) => c :: utf8DecodeIgnoreF f r
    | none => utf8DecodeIgnoreF f t

/-- `content.decode("utf-8", errors="ignore")`. -/
def utf8DecodeIgnore (l : List Nat) : List Nat := utf8DecodeIgnoreF l.length l

/-- Standard UTF-8 encoding of one Unicode scalar value. -/
def utf8EncodeChar (c : Nat) : List Nat :=
  if c < 128 then [c]
  else if c < 2048 then [192 + c / 64, 128 + c % 64]
  else if c < 65536 then [224 + c / 4096, 128 + c / 64 % 64, 128 + c % 64]
  else [240 + c / 262144, 128 + c / 4096 % 64, 128 + c / 64 % 64, 128 + c % 64]

/-- UTF-8 encoding of a scalar string: what "valid UTF-8 content" means. -/
def utf8Encode (s : List Nat) : List Nat := (s.map utf8EncodeChar).flatten

/-- The optional format capabilities feature-detected at process start
(`PDF_AVAILABLE` / `DOCX_AVAILABLE`) together with the behaviour of the
external parsers on given bytes: `none` models a `None` result or any
internal parser exception, `some` a successfully extracted text
(respectively list of paragraph texts for DOCX). -/
structure Caps where
  pdfAvailable : Bool
  docxAvailable : Bool
  pdfParse : List Nat → Option (List Nat)
  docxParse : List Nat → Option (List (List Nat))

/-- The extension dispatch of `extract_text`, applied to the bytes read from
the upload.  `.pdf`/`.docx` branches are taken only when the corresponding
capability is available; a parser failure degrades to the empty string
(`pdf_high.extract_text(f) or ""` maps a `None`/empty result to `""`, which
the `some`/`none` split of `Caps.pdfParse` covers); everything else falls
through to the UTF-8 errors-ignored decode. -/
def extractFromContent (caps : Caps) (content : List Nat) (filename : List Nat) : List Nat :=
  let low := asciiLower filename
  if endsWithL low (strCodes ".txt") then utf8DecodeIgnore content
  else if endsWithL low (strCodes ".pdf") ∧ caps.pdfAvailable = true then
    match caps.pdfParse content with
    | some t => t
    | none => []
  else if endsWithL low (strCodes ".docx") ∧ caps.docxAvailable = true then
    match caps.docxParse content with
    | some ps => List.intercalate [10] ps
    | none => []
  else utf8DecodeIgnore content

/-- The upload's file object: a seekable stream over the raw bytes. -/
structure UploadFile where
  filename : List Nat
  content : List Nat
  pos : Nat

/-- `file.file.read()`: the bytes from the current position to the end, and
the stream with its position moved to the end. -/
def fileReadAll (f : UploadFile) : List Nat × UploadFile :=
  (f.content.drop f.pos, ⟨f.filename, f.content, f.content.length⟩)

/-- `file.file.seek(0)`. -/
def fileSeekZero (f : UploadFile) : UploadFile := ⟨f.filename, f.content, 0⟩

/-- `extract_text(file)` from `main.py`: read the whole stream, reset it for
potential re-reads, and dispatch on the (lower-cased) filename extension.
Returns the extracted text together with the updated stream. -/
def extract_text (caps : Caps) (f : UploadFile) : List Nat × UploadFile :=
  let cr := fileReadAll f
  (extractFromContent caps cr.1 f.filename, fileSeekZero cr.2)

/-- The persisted `Researchpaper` record (`schemas.py`), as populated by the
`analyze` route. -/
structure Researchpaper where
  title : List Nat
  filename : List Nat
  size_bytes : Nat
  word_count : Nat
  sentence_count : Nat
  avg_sentence_length : ℚ
  sections : List (List Nat)
  readability : ℚ
  recommendations : List String
  status : String

/-- `filename.rsplit(".", 1)[0]`: everything before the last `.`, or the
whole string when it has no `.`. -/
def rsplitStem (l : List Nat) : List Nat :=
  if 46 ∈ l then ((l.reverse.dropWhile (fun c => !(c == 46))).tail).reverse else l

def untitled : List Nat := strCodes "Untitled Paper"

def dbErrorDetail : String := "Database not configured"

/-- The `analyze` route of `main.py`: extract, analyse, derive the title,
fail with a 500 "Database not configured" error exactly when the storage
collaborator (`db`) is absent, otherwise assemble the record (its
`size_bytes` re-reads the stream, which `extract_text` reset) and persist
it with status `"analyzed"`.  The storage collaborator's `create_document`
is modelled as an always-succeeding identity assignment, per its contract. -/
def analyze (caps : Caps) (dbAvailable : Bool) (f : UploadFile) :
    Except String Researchpaper :=
  let et := extract_text caps f
  let analysis := basic_analysis et.1
  let base_title := if f.filename = [] then untitled else rsplitStem f.filename
  if dbAvailable = false then Except.error dbErrorDetail
  else
    let sr := fileReadAll et.2
    Except.ok ⟨base_title, f.filename, sr.1.length, analysis.word_count,
      analysis.sentence_count, analysis.avg_sentence_length, analysis.sections,
      analysis.readability, analysis.recommendations, "analyzed"⟩

/-- Whether an `Except` result is a success. -/
def exceptOk {ε α : Type} : Except ε α → Bool
  | Except.ok _ => true
  | Except.error _ => false

instance (c : Nat) : Decidable (validScalar c) := by unfold validScalar; infer_instance

/-- Concrete input used by the counterexamples: the text `"a. ! !"`, whose
one word and three non-blank sentence segments give an average sentence
length of 1/3 — strictly between 0 and 1. -/
def t0 : List Nat := strCodes "a. ! !"

/-- The readability formula exactly as the spec sentence states it, with
`max(avg_sentence_length, 1)` (to be compared against the code's
truthiness guard `avg_sentence_length or 1`). -/
def specReadabilityMax (text : List Nat) : ℚ :=
  round2 (avgWordLen text * max (avgSentenceLength text) 1)

/-- Capabilities with both optional parsers unavailable (and failing). -/
def capsNone : Caps := ⟨false, false, fun _ => none, fun _ => none⟩

/-- An empty upload whose filename is just the extension `".txt"`. -/
def dotTxtFile : UploadFile := ⟨strCodes ".txt", [], 0⟩

/-- The claim's "N space-separated alphanumeric tokens": the tokens joined
by single spaces (code point 32). -/
def joinSpace : List (List Nat) → List Nat
  | [] => []
  | [t] => t
  | t :: t2 :: rest => t ++ 32 :: joinSpace (t2 :: rest)

/-! ## Helper lemmas -/

/-- Floor of a rational from a two-sided bound. -/
theorem floor_eq_of {q : ℚ} {n : ℤ} (h1 : (n : ℚ) ≤ q) (h2 : q < n + 1) : ⌊q⌋ = n :=
  Int.floor_eq_iff.mpr ⟨h1, h2⟩

/-- Evaluate `round2` when `q * 100` lies in the lower half of `[n, n+1)`. -/
theorem round2_eq_low {q : ℚ} {n : ℤ} (h1 : (n : ℚ) ≤ q * 100) (h3 : q * 100 < n + 1/2) :
    round2 q = n / 100 := by
  have hf : ⌊q * 100⌋ = n := floor_eq_of h1 (by linarith)
  unfold round2 roundHalfEven
  rw [hf, if_pos (by linarith)]

theorem round2_zero : round2 0 = 0 := by
  have := round2_eq_low (q := 0) (n := 0) (by norm_num) (by norm_num)
  rw [this]; norm_num

/-- Rounding a whole number to two decimal places is the identity. -/
theorem round2_natCast (n : ℕ) : round2 (n : ℚ) = n := by
  have h := round2_eq_low (q := (n : ℚ)) (n := (100 * n : ℤ))
    (by push_cast; linarith) (by push_cast; linarith)
  rw [h]
  push_cast
  field_simp

/-- The `avg_sentence_length or 1` guard fires exactly when there are no
sentences or no words. -/
theorem avgSentenceLength_eq_zero_iff (text : List Nat) :
    avgSentenceLength text = 0 ↔ sentenceCount text = 0 ∨ wordCount text = 0 := by
  rw [avgSentenceLength]
  by_cases h : sentenceCount text = 0
  · simp [h]
  · rw [if_neg h, div_eq_zero_iff]
    simp [Nat.cast_eq_zero, h]

/-! ## C1: the readability formula -/

/-- C1 counterexample: on the text `"a. ! !"` (avg_sentence_length = 1/3),
the code's readability `round(1 * (1/3), 2) = 0.33` differs from the
claimed `round(1 * max(1/3, 1), 2) = 1`, so the claim's `max` formula is
false of `basic_analysis`. -/
theorem readability_max_cex :
    (basic_analysis t0).readability ≠ specReadabilityMax t0 := by
  have hsc : sentenceCount t0 = 3 := by decide
  have hwc : wordCount t0 = 1 := by decide
  have hsum : ((wordsOf t0).map List.length).sum = 1 := by decide
  have hasl : avgSentenceLength t0 = 1/3 := by
    simp only [avgSentenceLength, hsc, hwc]; norm_num
  have hawl : avgWordLen t0 = 1 := by
    simp only [avgWordLen, hwc, hsum]; norm_num
  have h1 : (basic_analysis t0).readability = 33/100 := by
    show readabilityOf t0 = 33/100
    rw [readabilityOf, hasl, hawl, if_neg (by norm_num)]
    have := round2_eq_low (q := 1 * (1/3)) (n := 33) (by norm_num) (by norm_num)
    rw [this]; norm_num
  have h2 : specReadabilityMax t0 = 1 := by
    rw [specReadabilityMax, hasl, hawl]
    have hm : max ((1:ℚ)/3) 1 = 1 := max_eq_right (by norm_num)
    rw [hm]
    have := round2_eq_low (q := (1:ℚ) * 1) (n := 100) (by norm_num) (by norm_num)
    rw [this]; norm_num
  rw [h1, h2]; norm_num

/-- C1 amended: the readability value of the metrics bundle equals
`round(avg_word_length * g, 2)` where the factor `g` is `1` exactly when
the average sentence length is zero (no sentences or no words —
Python's `avg_sentence_length or 1`), and the average sentence length
itself otherwise; it is not clamped from below by `max(·, 1)`. -/
theorem readability_or_formula (text : List Nat) :
    (basic_analysis text).readability =
      round2 (avgWordLen text *
        (if sentenceCount text = 0 ∨ wordCount text = 0 then 1
         else avgSentenceLength text)) := by
  show readabilityOf text = _
  rw [readabilityOf]
  by_cases h : avgSentenceLength text = 0
  · rw [if_pos h, if_pos ((avgSentenceLength_eq_zero_iff text).mp h)]
  · rw [if_neg h, if_neg (fun hc => h ((avgSentenceLength_eq_zero_iff text).mpr hc))]

/-! ## C2: the avg_sentence_length field -/

/-- C2 counterexample: on `"a. ! !"` the bundle's `avg_sentence_length`
field is `round(1/3, 2) = 0.33`, not the exact quotient
`word_count / sentence_count = 1/3`. -/
theorem avg_len_field_cex :
    (basic_analysis t0).avg_sentence_length ≠
      (wordCount t0 : ℚ) / (sentenceCount t0 : ℚ) := by
  have hsc : sentenceCount t0 = 3 := by decide
  have hwc : wordCount t0 = 1 := by decide
  have hasl : avgSentenceLength t0 = 1/3 := by
    simp only [avgSentenceLength, hsc, hwc]; norm_num
  have h1 : (basic_analysis t0).avg_sentence_length = 33/100 := by
    show round2 (avgSentenceLength t0) = 33/100
    rw [hasl]
    have := round2_eq_low (q := (1:ℚ)/3) (n := 33) (by norm_num) (by norm_num)
    rw [this]; norm_num
  rw [h1, hsc, hwc]; norm_num

/-- C2 amended: the bundle's `avg_sentence_length` field is
`round(word_count / sentence_count, 2)` — the quotient rounded to two
decimal places, not the exact quotient — when `sentence_count > 0`, and
`0.0` when `sentence_count = 0`. -/
theorem avg_len_field_eq (text : List Nat) :
    (basic_analysis text).avg_sentence_length =
      (if sentenceCount text = 0 then 0
       else round2 ((wordCount text : ℚ) / (sentenceCount text : ℚ))) := by
  show round2 (avgSentenceLength text) = _
  by_cases h : sentenceCount text = 0
  · simp [avgSentenceLength, h, round2_zero]
  · simp [avgSentenceLength, h]

/-! ## C3: the .pdf branch -/

/-- Two leading-block tests with different first elements cannot both hold. -/
theorem startsWith_excl {a b : Nat} {as bs l : List Nat} (hne : a ≠ b)
    (h1 : startsWithL (a :: as) l = true) : startsWithL (b :: bs) l = false := by
  cases l with
  | nil => simp [startsWithL] at h1
  | cons c t =>
    simp only [startsWithL, Bool.and_eq_true, beq_iff_eq] at h1
    have hb : (b == c) = false := beq_eq_false_iff_ne.mpr (by omega)
    simp [startsWithL, hb]

theorem endsWith_pdf_not_txt {l : List Nat} (h : endsWithL l (strCodes ".pdf") = true) :
    endsWithL l (strCodes ".txt") = false := by
  rw [endsWithL] at h ⊢
  rw [show (strCodes ".pdf").reverse = 102 :: [100, 112, 46] from rfl] at h
  rw [show (strCodes ".txt").reverse = 116 :: [120, 116, 46] from rfl]
  exact startsWith_excl (by omega) h

theorem endsWith_pdf_not_docx {l : List Nat} (h : endsWithL l (strCodes ".pdf") = true) :
    endsWithL l (strCodes ".docx") = false := by
  rw [endsWithL] at h ⊢
  rw [show (strCodes ".pdf").reverse = 102 :: [100, 112, 46] from rfl] at h
  rw [show (strCodes ".docx").reverse = 120 :: [99, 111, 100, 46] from rfl]
  exact startsWith_excl (by omega) h

/-- C3 counterexample: with the PDF capability unavailable, a `.pdf` upload
containing the bytes `"hi"` extracts to a non-empty string (the generic
UTF-8 fallback decode), not the empty string the claim requires. -/
theorem extract_pdf_unavailable_cex :
    capsNone.pdfAvailable = false ∧
    (extract_text capsNone ⟨strCodes "x.pdf", strCodes "hi", 0⟩).1 ≠ [] := by
  decide

/-- C3 amended: for a filename ending in `.pdf` (case-insensitive),
extract_text returns the empty string when the PDF capability is available
and parsing fails; when the capability is unavailable the `.pdf` branch is
skipped and extract_text instead falls through to the UTF-8 errors-ignored
decode of the content. -/
theorem extract_pdf_cases (caps : Caps) (content fn : List Nat)
    (hpdf : endsWithL (asciiLower fn) (strCodes ".pdf") = true) :
    (caps.pdfAvailable = true → caps.pdfParse content = none →
        (extract_text caps ⟨fn, content, 0⟩).1 = []) ∧
    (caps.pdfAvailable = false →
        (extract_text caps ⟨fn, content, 0⟩).1 = utf8DecodeIgnore content) := by
  have htxt := endsWith_pdf_not_txt hpdf
  have hdocx := endsWith_pdf_not_docx hpdf
  constructor
  · intro hav hparse
    simp [extract_text, fileReadAll, extractFromContent, htxt, hpdf, hav, hparse]
  · intro hav
    simp [extract_text, fileReadAll, extractFromContent, htxt, hpdf, hav, hdocx]

/-- C3 witness: the amended theorem applied to a concrete unavailable-PDF
upload. -/
theorem extract_pdf_cases_witness :
    (extract_text capsNone ⟨strCodes "y.pdf", strCodes "ok", 0⟩).1 =
      utf8DecodeIgnore (strCodes "ok") :=
  (extract_pdf_cases capsNone (strCodes "ok") (strCodes "y.pdf") (by decide)).2 rfl

/-! ## C4: the persisted title -/

/-- C4 counterexample: for the filename `".txt"` (present and non-empty),
the persisted title is `rsplit` stem of the filename — the empty string —
contradicting the claim that the title is always non-empty. -/
theorem analyze_title_empty_cex :
    (analyze capsNone true dotTxtFile).map Researchpaper.title = Except.ok [] := rfl

/-- C4 amended: on every successful request the persisted title is the
filename without its final extension when the filename is non-empty (which
is itself the empty string when the filename starts with its only dot,
e.g. `".txt"`), and the placeholder "Untitled Paper" when the filename is
absent or empty. -/
theorem analyze_title_stem (caps : Caps) (f : UploadFile) :
    (analyze caps true f).map Researchpaper.title =
      Except.ok (if f.filename = [] then untitled else rsplitStem f.filename) := by
  simp [analyze, Except.map]

/-! ## C6: the storage gate -/

/-- C6: the analyze operation fails (with the 500 "Database not configured"
signal) exactly when the storage collaborator is unavailable; with storage
available every upload completes successfully and the persisted record's
status is "analyzed". -/
theorem analyze_db_gate (caps : Caps) (avail : Bool) (f : UploadFile) :
    exceptOk (analyze caps avail f) = avail ∧
    (analyze caps avail f).map Researchpaper.status =
      (if avail = true then Except.ok "analyzed" else Except.error dbErrorDetail) := by
  cases avail <;> simp [analyze, exceptOk, Except.map]

/-! ## C10: size_bytes -/

/-- C10: on every successful request the persisted `size_bytes` is the total
byte length of the uploaded content — `extract_text` reads the stream to
the end but seeks back to 0, so the later size read sees the full content
regardless of the stream position the request started from. -/
theorem analyze_size_bytes (caps : Caps) (avail : Bool) (f : UploadFile) :
    (analyze caps avail f).map Researchpaper.size_bytes =
      (if avail = true then Except.ok f.content.length else Except.error dbErrorDetail) := by
  cases avail <;>
    simp [analyze, extract_text, fileReadAll, fileSeekZero, Except.map]

/-! ## C5: extract_text on .txt with valid UTF-8 -/

theorem utf8EncodeChar_length_pos (c : Nat) : 0 < (utf8EncodeChar c).length := by
  unfold utf8EncodeChar
  split_ifs <;> simp

set_option maxHeartbeats 1000000 in
/-- Decoding consumes exactly the encoding of a valid scalar and yields it
back: the four byte-length cases of the standard encoding all pass the
decoder's lead/continuation/overlong/surrogate/range checks. -/
theorem decodeOne_encodeChar {c : Nat} (h : validScalar c) (rest : List Nat) :
    decodeOne (utf8EncodeChar c ++ rest) = some (c, rest) := by
  obtain ⟨h1, h2⟩ := h
  by_cases hc1 : c < 128
  · simp [utf8EncodeChar, hc1, decodeOne]
  · by_cases hc2 : c < 2048
    · have e : utf8EncodeChar c = [192 + c / 64, 128 + c % 64] := by
        simp [utf8EncodeChar, hc1, hc2]
      rw [e]
      show decodeOne ((192 + c / 64) :: (128 + c % 64) :: rest) = _
      simp only [decodeOne, isContB]
      split_ifs <;> simp_all <;> omega
    · by_cases hc3 : c < 65536
      · have e : utf8EncodeChar c = [224 + c / 4096, 128 + c / 64 % 64, 128 + c % 64] := by
          simp [utf8EncodeChar, hc1, hc2, hc3]
        rw [e]
        show decodeOne ((224 + c / 4096) :: (128 + c / 64 % 64) :: (128 + c % 64) :: rest) = _
        simp only [decodeOne, isContB]
        split_ifs <;> simp_all <;> omega
      · have e : utf8EncodeChar c =
            [240 + c / 262144, 128 + c / 4096 % 64, 128 + c / 64 % 64, 128 + c % 64] := by
          simp [utf8EncodeChar, hc1, hc2, hc3]
        rw [e]
        show decodeOne
            ((240 + c / 262144) :: (128 + c / 4096 % 64) :: (128 + c / 64 % 64) ::
              (128 + c % 64) :: rest) = _
        simp only [decodeOne, isContB]
        split_ifs <;> simp_all <;> omega

theorem utf8DecodeIgnoreF_encode (s : List Nat) :
    ∀ f, (∀ c ∈ s, validScalar c) → (utf8Encode s).length ≤ f →
      utf8DecodeIgnoreF f (utf8Encode s) = s := by
  induction s with
  | nil =>
    intro f _ _
    show utf8DecodeIgnoreF f [] = []
    cases f <;> rfl
  | cons c s ih =>
    intro f hv hf
    have hvc : validScalar c := hv c (List.mem_cons_self _ _)
    have hvs : ∀ x ∈ s, validScalar x := fun x hx => hv x (List.mem_cons_of_mem _ hx)
    have henc : utf8Encode (c :: s) = utf8EncodeChar c ++ utf8Encode s := by
      simp [utf8Encode]
    rw [henc] at hf ⊢
    have hlen : 0 < (utf8EncodeChar c).length := utf8EncodeChar_length_pos c
    have hflen : (utf8EncodeChar c).length + (utf8Encode s).length ≤ f := by
      simpa using hf
    obtain ⟨f', rfl⟩ : ∃ f', f = f' + 1 := ⟨f - 1, by omega⟩
    obtain ⟨b, t, hbt⟩ : ∃ b t, utf8EncodeChar c ++ utf8Encode s = b :: t := by
      cases he : utf8EncodeChar c with
      | nil => rw [he] at hlen; simp at hlen
      | cons b bs => exact ⟨b, bs ++ utf8Encode s, by simp [he]⟩
    rw [hbt]
    simp only [utf8DecodeIgnoreF]
    rw [← hbt, decodeOne_encodeChar hvc]
    exact congrArg _ (ih f' hvs (by omega))

/-- Round trip: the errors-ignored decode restores any validly encoded
scalar string exactly. -/
theorem utf8DecodeIgnore_encode (s : List Nat) (hs : ∀ c ∈ s, validScalar c) :
    utf8DecodeIgnore (utf8Encode s) = s :=
  utf8DecodeIgnoreF_encode s _ hs le_rfl

/-- C5: extract_text is a total function of the upload (it returns a string
for every byte content and filename by construction of the model), and for
a filename ending in ".txt" (case-insensitively, as the code lower-cases
before testing) whose content is the UTF-8 encoding of a scalar string, it
returns exactly that string — the errors="ignore" decode loses nothing on
valid input. -/
theorem extract_text_txt_utf8 (caps : Caps) (fn s : List Nat)
    (hfn : endsWithL (asciiLower fn) (strCodes ".txt") = true)
    (hs : ∀ c ∈ s, validScalar c) :
    (extract_text caps ⟨fn, utf8Encode s, 0⟩).1 = s := by
  simp only [extract_text, fileReadAll, List.drop_zero, extractFromContent]
  rw [if_pos hfn]
  exact utf8DecodeIgnore_encode s hs

/-- C5 witness: a concrete `.txt` upload with content `"hi"`. -/
theorem extract_text_txt_utf8_witness :
    (extract_text capsNone ⟨strCodes "a.txt", utf8Encode (strCodes "hi"), 0⟩).1 =
      strCodes "hi" :=
  extract_text_txt_utf8 capsNone (strCodes "a.txt") (strCodes "hi") (by decide) (by decide)

/-! ## C7: empty payload -/

/-- An empty payload extracts to the empty string on every branch of the
dispatch, given that the external parsers fail on empty input (pdfminer
and python-docx both raise on zero bytes, which the `except` arms turn
into the empty string). -/
theorem empty_extract (caps : Caps) (fn : List Nat)
    (hpdf : caps.pdfParse [] = none) (hdocx : caps.docxParse [] = none) :
    (extract_text caps ⟨fn, [], 0⟩).1 = [] := by
  simp only [extract_text, fileReadAll, List.drop_zero, extractFromContent]
  split_ifs
  · rfl
  · rw [hpdf]
  · rw [hdocx]
  · rfl

theorem readabilityOf_nil : readabilityOf [] = 0 := by
  have h1 : avgWordLen [] = 0 := rfl
  rw [readabilityOf, h1, zero_mul, round2_zero]

/-- C7: analysing a zero-length payload under any filename yields
readability 0 and exactly the "empty or unreadable" message followed by
all seven section-based recommendations, in rule order. -/
theorem empty_payload_analysis (caps : Caps) (fn : List Nat)
    (hpdf : caps.pdfParse [] = none) (hdocx : caps.docxParse [] = none) :
    (basic_analysis (extract_text caps ⟨fn, [], 0⟩).1).readability = 0 ∧
    (basic_analysis (extract_text caps ⟨fn, [], 0⟩).1).recommendations =
      [msgEmpty, msgAbstract, msgIntro, msgMethods, msgResults,
       msgDiscussion, msgConclusion, msgReferences] := by
  rw [empty_extract caps fn hpdf hdocx]
  refine ⟨readabilityOf_nil, ?_⟩
  show recsOf [] = _
  have hraw : recsRaw [] =
      [msgEmpty, msgAbstract, msgIntro, msgMethods, msgResults,
       msgDiscussion, msgConclusion, msgReferences] := by
    simp [recsRaw, readabilityOf_nil,
      show sentenceCount [] = 0 from rfl,
      show pyStrip ([] : List Nat) = [] from rfl,
      show sectionsOf [] = ([] : List (List Nat)) from by decide]
  rw [recsOf, hraw]
  decide

/-- C7 witness: a concrete empty upload with an unknown extension. -/
theorem empty_payload_analysis_witness :
    (basic_analysis (extract_text capsNone ⟨strCodes "a.bin", [], 0⟩).1).readability = 0 ∧
    (basic_analysis (extract_text capsNone ⟨strCodes "a.bin", [], 0⟩).1).recommendations =
      [msgEmpty, msgAbstract, msgIntro, msgMethods, msgResults,
       msgDiscussion, msgConclusion, msgReferences] :=
  empty_payload_analysis capsNone (strCodes "a.bin") rfl rfl

/-! ## C9: long/short warnings are mutually exclusive -/

theorem mem_of_mem_dedupAux {a : String} {l : List String} :
    ∀ {seen : List String}, a ∈ dedupAux l seen → a ∈ l := by
  induction l with
  | nil => intro seen h; simp [dedupAux] at h
  | cons x xs ih =>
    intro seen h
    rw [dedupAux] at h
    split_ifs at h with hx
    · exact List.mem_cons_of_mem _ (ih h)
    · rcases List.mem_cons.mp h with h1 | h2
      · exact h1 ▸ List.mem_cons_self _ _
      · exact List.mem_cons_of_mem _ (ih h2)

theorem mem_ite_single {a m : String} {c : Prop} [Decidable c]
    (h : a ∈ (if c then [m] else [])) : c ∧ a = m := by
  split_ifs at h with hc
  · exact ⟨hc, by simpa using h⟩
  · simp at h

/-- The long-sentence warning appears only when the (unrounded) average
sentence length exceeds 30. -/
theorem mem_recsOf_long {text : List Nat} (h : msgLong ∈ recsOf text) :
    avgSentenceLength text > 30 := by
  have h' : msgLong ∈ recsRaw text := mem_of_mem_dedupAux h
  rw [recsRaw] at h'
  simp only [List.mem_append] at h'
  rcases h' with ((((((((((h1 | h2) | h3) | h4) | h5) | h6) | h7) | h8) | h9) | h10) | h11)
  · exact absurd (mem_ite_single h1).2 (by decide)
  · exact (mem_ite_single h2).1.2
  · exact absurd (mem_ite_single h3).2 (by decide)
  · exact absurd (mem_ite_single h4).2 (by decide)
  · exact absurd (mem_ite_single h5).2 (by decide)
  · exact absurd (mem_ite_single h6).2 (by decide)
  · exact absurd (mem_ite_single h7).2 (by decide)
  · exact absurd (mem_ite_single h8).2 (by decide)
  · exact absurd (mem_ite_single h9).2 (by decide)
  · exact absurd (mem_ite_single h10).2 (by decide)
  · exact absurd (mem_ite_single h11).2 (by decide)

/-- The short-sentence warning appears only when the (unrounded) average
sentence length is below 12. -/
theorem mem_recsOf_short {text : List Nat} (h : msgShort ∈ recsOf text) :
    avgSentenceLength text < 12 := by
  have h' : msgShort ∈ recsRaw text := mem_of_mem_dedupAux h
  rw [recsRaw] at h'
  simp only [List.mem_append] at h'
  rcases h' with ((((((((((h1 | h2) | h3) | h4) | h5) | h6) | h7) | h8) | h9) | h10) | h11)
  · exact absurd (mem_ite_single h1).2 (by decide)
  · exact absurd (mem_ite_single h2).2 (by decide)
  · exact (mem_ite_single h3).1.2
  · exact absurd (mem_ite_single h4).2 (by decide)
  · exact absurd (mem_ite_single h5).2 (by decide)
  · exact absurd (mem_ite_single h6).2 (by decide)
  · exact absurd (mem_ite_single h7).2 (by decide)
  · exact absurd (mem_ite_single h8).2 (by decide)
  · exact absurd (mem_ite_single h9).2 (by decide)
  · exact absurd (mem_ite_single h10).2 (by decide)
  · exact absurd (mem_ite_single h11).2 (by decide)

/-- C9: for every input text, the recommendation list never contains both
the long-sentence warning (which requires an average above 30) and the
short-sentence warning (which requires an average below 12). -/
theorem long_short_exclusive (text : List Nat) :
    msgLong ∉ (basic_analysis text).recommendations ∨
    msgShort ∉ (basic_analysis text).recommendations := by
  by_cases h : avgSentenceLength text > 30
  · right
    intro hm
    have h12 : avgSentenceLength text < 12 := mem_recsOf_short hm
    linarith
  · left
    intro hm
    exact h (mem_recsOf_long hm)

/-! ## C8: space-separated alphanumeric tokens -/

theorem isAlnum_word {c : Nat} (h : isAlnumC c = true) : isWordC c = true := by
  simp only [isAlnumC, decide_eq_true_eq] at h
  simp only [isWordC, decide_eq_true_eq]
  omega

theorem isAlnum_not_ws {c : Nat} (h : isAlnumC c = true) : isWsC c = false := by
  simp only [isAlnumC, decide_eq_true_eq] at h
  simp only [isWsC, decide_eq_false_iff_not]
  omega

theorem isAlnum_not_term {c : Nat} (h : isAlnumC c = true) : isTermC c = false := by
  simp only [isAlnumC, decide_eq_true_eq] at h
  simp only [isTermC, decide_eq_false_iff_not]
  omega

/-- The word scanner passes over a block of word characters, accumulating
it into the current word. -/
theorem wordsOfAux_all_word {t : List Nat} (h : ∀ c ∈ t, isWordC c = true) :
    ∀ (r cur : List Nat), wordsOfAux (t ++ r) cur = wordsOfAux r (t.reverse ++ cur) := by
  induction t with
  | nil => intro r cur; simp
  | cons c t ih =>
    intro r cur
    have hc : isWordC c = true := h c (by simp)
    have ht : ∀ x ∈ t, isWordC x = true := fun x hx => h x (by simp [hx])
    show wordsOfAux (c :: (t ++ r)) cur = _
    simp only [wordsOfAux]
    rw [if_pos hc, ih ht r (c :: cur)]
    congr 1
    simp

/-- A non-empty all-word-character text is a single word. -/
theorem wordsOf_all_word {t : List Nat} (h : ∀ c ∈ t, isWordC c = true) (hne : t ≠ []) :
    wordsOf t = [t] := by
  have h1 : wordsOfAux (t ++ []) [] = wordsOfAux [] (t.reverse ++ []) :=
    wordsOfAux_all_word h [] []
  rw [List.append_nil, List.append_nil] at h1
  rw [wordsOf, h1]
  show flushWord t.reverse = [t]
  rw [flushWord, if_neg (by simpa using hne), List.reverse_reverse]

/-- The word tokens of space-joined non-empty word-character tokens are
exactly the tokens. -/
theorem wordsOf_joinSpace : ∀ (tokens : List (List Nat)),
    (∀ t ∈ tokens, t ≠ [] ∧ ∀ c ∈ t, isWordC c = true) →
    wordsOfAux (joinSpace tokens) [] = tokens
  | [], _ => rfl
  | [t], h => by
    obtain ⟨hne, hw⟩ := h t (by simp)
    show wordsOfAux t [] = [t]
    exact wordsOf_all_word hw hne
  | t :: t2 :: rest, h => by
    obtain ⟨hne, hw⟩ := h t (by simp)
    have hrest : ∀ x ∈ t2 :: rest, x ≠ [] ∧ ∀ c ∈ x, isWordC c = true :=
      fun x hx => h x (List.mem_cons_of_mem _ hx)
    show wordsOfAux (t ++ 32 :: joinSpace (t2 :: rest)) [] = t :: t2 :: rest
    rw [wordsOfAux_all_word hw _ [], List.append_nil]
    show wordsOfAux (32 :: joinSpace (t2 :: rest)) t.reverse = _
    simp only [wordsOfAux]
    rw [if_neg (by decide)]
    rw [flushWord, if_neg (by simpa using hne), List.reverse_reverse]
    rw [wordsOf_joinSpace (t2 :: rest) hrest]
    rfl

/-- Splitting never fires on text without sentence-terminal punctuation:
the whole text is one segment (also when the fuel guard is reached). -/
theorem sentSplitF_no_term : ∀ (f : Nat) (l : List Nat),
    (∀ c ∈ l, isTermC c = false) → sentSplitF f l = [l]
  | f, [], _ => by cases f <;> rfl
  | 0, c :: t, _ => rfl
  | f + 1, c :: t, h => by
    have hc : isTermC c = false := h c (by simp)
    have ht : ∀ x ∈ t, isTermC x = false := fun x hx => h x (by simp [hx])
    have hrec : sentSplitF f t = [t] := sentSplitF_no_term f t ht
    simp [sentSplitF, hc, hrec]

theorem joinSpace_all {p : Nat → Bool} : ∀ (tokens : List (List Nat)),
    p 32 = true → (∀ t ∈ tokens, ∀ c ∈ t, p c = true) →
    ∀ c ∈ joinSpace tokens, p c = true
  | [], _, _ => by simp [joinSpace]
  | [t], h32, h => by
    intro c hc
    exact h t (by simp) c (by simpa [joinSpace] using hc)
  | t :: t2 :: rest, h32, h => by
    intro c hc
    rw [show joinSpace (t :: t2 :: rest) = t ++ 32 :: joinSpace (t2 :: rest) from rfl] at hc
    rcases List.mem_append.mp hc with h1 | h2
    · exact h t (by simp) c h1
    · rcases List.mem_cons.mp h2 with rfl | h3
      · exact h32
      · exact joinSpace_all (t2 :: rest) h32
          (fun x hx => h x (List.mem_cons_of_mem _ hx)) c h3

theorem joinSpace_ne_nil : ∀ (tokens : List (List Nat)), tokens ≠ [] →
    (∀ t ∈ tokens, t ≠ []) → joinSpace tokens ≠ []
  | [], h, _ => absurd rfl h
  | [t], _, h => by simpa [joinSpace] using h t (by simp)
  | t :: t2 :: rest, _, h => by
    show t ++ 32 :: joinSpace (t2 :: rest) ≠ []
    simp

theorem joinSpace_head : ∀ (t : List Nat) (rest : List (List Nat)) (c : Nat) (tl : List Nat),
    t = c :: tl → (joinSpace (t :: rest)).head? = some c
  | t, [], c, tl, h => by rw [show joinSpace [t] = t from rfl, h]; rfl
  | t, t2 :: rest, c, tl, h => by
    rw [show joinSpace (t :: t2 :: rest) = t ++ 32 :: joinSpace (t2 :: rest) from rfl, h]
    rfl

theorem joinSpace_getLast : ∀ (tokens : List (List Nat)), tokens ≠ [] →
    (∀ t ∈ tokens, t ≠ [] ∧ ∀ c ∈ t, isAlnumC c = true) →
    ∃ c, (joinSpace tokens).getLast? = some c ∧ isAlnumC c = true
  | [], h, _ => absurd rfl h
  | [t], _, h => by
    obtain ⟨hne, hal⟩ := h t (by simp)
    refine ⟨t.getLast hne, ?_, hal _ (List.getLast_mem _)⟩
    rw [show joinSpace [t] = t from rfl]
    exact List.getLast?_eq_getLast t hne
  | t :: t2 :: rest, _, h => by
    obtain ⟨c, hc1, hc2⟩ := joinSpace_getLast (t2 :: rest) (by simp)
      (fun x hx => h x (List.mem_cons_of_mem _ hx))
    refine ⟨c, ?_, hc2⟩
    rw [show joinSpace (t :: t2 :: rest) = t ++ 32 :: joinSpace (t2 :: rest) from rfl]
    rw [List.getLast?_append]
    rw [show (32 :: joinSpace (t2 :: rest)) = [32] ++ joinSpace (t2 :: rest) from rfl]
    rw [List.getLast?_append, hc1]
    rfl

theorem dropWhile_head_false {p : Nat → Bool} {l : List Nat} {a : Nat}
    (hh : l.head? = some a) (ha : p a = false) : l.dropWhile p = l := by
  cases l with
  | nil => simp at hh
  | cons x xs =>
    have hx : x = a := by simpa using hh
    subst hx
    simp [List.dropWhile_cons, ha]

/-- `strip` is the identity on text whose first and last characters are
not whitespace. -/
theorem pyStrip_id {l : List Nat} {a b : Nat}
    (hh : l.head? = some a) (ha : isWsC a = false)
    (hl : l.getLast? = some b) (hb : isWsC b = false) : pyStrip l = l := by
  rw [pyStrip, dropWhile_head_false hh ha]
  rw [dropWhile_head_false (by rw [List.head?_reverse]; exact hl) hb]
  exact List.reverse_reverse l

/-- C8: a text of N ≥ 1 space-separated alphanumeric tokens with no
sentence-terminal punctuation yields sentence_count 1 (the whole text is a
single non-blank segment), word_count N, and avg_sentence_length N. -/
theorem joined_tokens_metrics (tokens : List (List Nat))
    (hne : tokens ≠ [])
    (h : ∀ t ∈ tokens, t ≠ [] ∧ ∀ c ∈ t, isAlnumC c = true) :
    (basic_analysis (joinSpace tokens)).sentence_count = 1 ∧
    (basic_analysis (joinSpace tokens)).word_count = tokens.length ∧
    (basic_analysis (joinSpace tokens)).avg_sentence_length = (tokens.length : ℚ) := by
  have hword : ∀ t ∈ tokens, t ≠ [] ∧ ∀ c ∈ t, isWordC c = true :=
    fun t ht => ⟨(h t ht).1, fun c hc => isAlnum_word ((h t ht).2 c hc)⟩
  have hwc : wordCount (joinSpace tokens) = tokens.length := by
    rw [wordCount, wordsOf, wordsOf_joinSpace tokens hword]
  obtain ⟨t1, rest1, rfl⟩ : ∃ t1 rest1, tokens = t1 :: rest1 := by
    cases tokens with
    | nil => exact absurd rfl hne
    | cons a b => exact ⟨a, b, rfl⟩
  obtain ⟨c1, tl1, ht1⟩ : ∃ c1 tl1, t1 = c1 :: tl1 := by
    cases h1 : t1 with
    | nil => exact absurd h1 (h t1 (by simp)).1
    | cons a b => exact ⟨a, b, rfl⟩
  have hh : (joinSpace (t1 :: rest1)).head? = some c1 := joinSpace_head t1 rest1 c1 tl1 ht1
  have hc1a : isAlnumC c1 = true := (h t1 (by simp)).2 c1 (by simp [ht1])
  obtain ⟨cl, hcl1, hcl2⟩ := joinSpace_getLast (t1 :: rest1) (by simp) h
  have hstrip : pyStrip (joinSpace (t1 :: rest1)) = joinSpace (t1 :: rest1) :=
    pyStrip_id hh (isAlnum_not_ws hc1a) hcl1 (isAlnum_not_ws hcl2)
  have hnn : joinSpace (t1 :: rest1) ≠ [] :=
    joinSpace_ne_nil _ (by simp) (fun t ht => (h t ht).1)
  have hterm : ∀ c ∈ joinSpace (t1 :: rest1), isTermC c = false := by
    have hgen := joinSpace_all (p := fun c => !(isTermC c)) (t1 :: rest1) (by decide)
      (fun t ht c hc => by simp [isAlnum_not_term ((h t ht).2 c hc)])
    intro c hc
    simpa using hgen c hc
  have hsplit : sentSplit (joinSpace (t1 :: rest1)) = [joinSpace (t1 :: rest1)] :=
    sentSplitF_no_term _ _ hterm
  have hsent : sentencesOf (joinSpace (t1 :: rest1)) = [joinSpace (t1 :: rest1)] := by
    rw [sentencesOf, if_neg (by rw [hstrip]; exact hnn), hstrip, hsplit]
  have hsc : sentenceCount (joinSpace (t1 :: rest1)) = 1 := by
    rw [sentenceCount, hsent]
    have hbeq : (pyStrip (joinSpace (t1 :: rest1)) == []) = false := by
      rw [hstrip]
      exact beq_eq_false_iff_ne.mpr hnn
    simp [List.filter, hbeq]
  have hasl : avgSentenceLength (joinSpace (t1 :: rest1)) = ((t1 :: rest1).length : ℚ) := by
    rw [avgSentenceLength, hsc, hwc]
    norm_num
  refine ⟨hsc, hwc, ?_⟩
  show round2 (avgSentenceLength (joinSpace (t1 :: rest1))) = _
  rw [hasl, round2_natCast]

/-- C8 witness: the two tokens "ab" and "c". -/
theorem joined_tokens_metrics_witness :
    (basic_analysis (joinSpace [strCodes "ab", strCodes "c"])).sentence_count = 1 ∧
    (basic_analysis (joinSpace [strCodes "ab", strCodes "c"])).word_count = 2 ∧
    (basic_analysis (joinSpace [strCodes "ab", strCodes "c"])).avg_sentence_length = 2 := by
  have h := joined_tokens_metrics [strCodes "ab", strCodes "c"] (by decide) (by decide)
  simpa using h
